import Mathlib

/-!
Verification of the `gatherr` library (src/src/lib.rs).

The library collects an iterator of `Result<A, B>` into a single
`Result<T, E>` that keeps *every* error value instead of only the first.
The shallow embedding models iterators as finite lists and the generic
`FromIterator` collections as lists; `Result<A, B>` becomes the inductive
`RResult A B` below.
-/

/-- Rust `Result<A, B>`: either `Ok(a)` or `Err(b)`. -/
inductive RResult (A B : Type) where
  | ok : A → RResult A B
  | err : B → RResult A B
deriving DecidableEq, Repr

variable {A B C : Type}

/-- Rust `Result::err`: `Some(e)` when the value is `Err(e)`, else `None`.
Used by `from_iter` as `iter.filter_map(|r| r.err())`. -/
def RResult.errOpt : RResult A B → Option B
  | .ok _ => none
  | .err e => some e

/-- Rust `Result::ok`: `Some(a)` when the value is `Ok(a)`, else `None`. -/
def RResult.okOpt : RResult A B → Option A
  | .ok a => some a
  | .err _ => none

/-- Rust `Result::is_err`. -/
def RResult.isErr : RResult A B → Bool
  | .ok _ => false
  | .err _ => true

/-- The `scan`-then-`collect` phase of `Gatherr::from_iter`: consume elements
in order, collecting `Ok` payloads, until either the first `Err` (which is
consumed and recorded in the `first_err` slot) or the end of the input.
Returns the collected `Ok` values, the first error if one was seen, and the
elements the iterator has not yet yielded. -/
def scanUntilErr : List (RResult A B) → List A × Option B × List (RResult A B)
  | [] => ([], none, [])
  | .ok v :: rest =>
    let s := scanUntilErr rest
    (v :: s.1, s.2)
  | .err e :: rest => ([], some e, rest)

/-- The newtype `pub struct Gatherr<T, E>(pub Result<T, E>)`. -/
structure Gatherr (T E : Type) where
  res : RResult T E
deriving DecidableEq, Repr

/-- Embedding of `<Gatherr as FromIterator<Result<A, B>>>::from_iter`:
collect `Ok` values until the first `Err`; if a first error exists, drop the
collected successes and chain the first error with the `Err` values of the
remaining elements; otherwise wrap the collected successes in `Ok`. -/
def Gatherr.from_iter (l : List (RResult A B)) : Gatherr (List A) (List B) :=
  let s := scanUntilErr l
  match s.2.1 with
  | some first_err => ⟨.err (first_err :: s.2.2.filterMap RResult.errOpt)⟩
  | none => ⟨.ok s.1⟩

/-- Embedding of `IterExt::gatherr`: `let Gatherr(result) = self.collect(); result`. -/
def IterExt.gatherr (l : List (RResult A B)) : RResult (List A) (List B) :=
  (Gatherr.from_iter l).res

/-- Embedding of the free function `gatherr`:
`let Gatherr(result) = iter.into_iter().collect(); result`. -/
def gatherr (l : List (RResult A B)) : RResult (List A) (List B) :=
  (Gatherr.from_iter l).res

/-! Helper lemmas characterizing the scan phase and `from_iter`. -/

/-- Characterization of the scan phase: either no error was seen, the
collected successes are all success payloads of the input and the input has
no error payloads; or a first error was seen and the input's error payloads
are that error followed by the error payloads of the unconsumed remainder. -/
theorem scanUntilErr_spec (l : List (RResult A B)) :
    ((scanUntilErr l).2.1 = none ∧ (scanUntilErr l).1 = l.filterMap RResult.okOpt
      ∧ l.filterMap RResult.errOpt = []) ∨
    (∃ e, (scanUntilErr l).2.1 = some e ∧
      l.filterMap RResult.errOpt
        = e :: ((scanUntilErr l).2.2).filterMap RResult.errOpt) := by
  induction l with
  | nil => exact Or.inl ⟨rfl, rfl, rfl⟩
  | cons x l ih =>
    cases x with
    | ok a =>
      rcases ih with ⟨h1, h2, h3⟩ | ⟨e, h1, h2⟩
      · refine Or.inl ⟨?_, ?_, ?_⟩
        · simpa [scanUntilErr] using h1
        · simp [scanUntilErr, RResult.okOpt, h2]
        · simpa [RResult.errOpt] using h3
      · refine Or.inr ⟨e, ?_, ?_⟩
        · simpa [scanUntilErr] using h1
        · simpa [scanUntilErr, RResult.errOpt] using h2
    | err e =>
      exact Or.inr ⟨e, rfl, by simp [scanUntilErr, RResult.errOpt]⟩

/-- Closed form of `Gatherr.from_iter`: the result is determined by the
ordered list of error payloads of the input. -/
theorem from_iter_eq (l : List (RResult A B)) :
    Gatherr.from_iter l =
      ⟨match l.filterMap RResult.errOpt with
       | [] => .ok (l.filterMap RResult.okOpt)
       | e :: es => .err (e :: es)⟩ := by
  rcases scanUntilErr_spec l with ⟨h1, h2, h3⟩ | ⟨e, h1, h2⟩
  · simp [Gatherr.from_iter, h1, h2, h3]
  · simp [Gatherr.from_iter, h1, h2]

/-- With at least one error payload, `from_iter` returns all error payloads. -/
theorem from_iter_err (l : List (RResult A B))
    (h : l.filterMap RResult.errOpt ≠ []) :
    Gatherr.from_iter l = ⟨.err (l.filterMap RResult.errOpt)⟩ := by
  rw [from_iter_eq]
  rcases he : l.filterMap RResult.errOpt with _ | ⟨e, es⟩
  · exact absurd he h
  · rfl

/-- With no error payload, `from_iter` returns all success payloads. -/
theorem from_iter_ok (l : List (RResult A B))
    (h : l.filterMap RResult.errOpt = []) :
    Gatherr.from_iter l = ⟨.ok (l.filterMap RResult.okOpt)⟩ := by
  rw [from_iter_eq, h]

/-- Membership in the error payloads is membership of an `err` element. -/
theorem mem_filterMap_errOpt {b : B} {l : List (RResult A B)} :
    b ∈ l.filterMap RResult.errOpt ↔ RResult.err b ∈ l := by
  rw [List.mem_filterMap]
  constructor
  · rintro ⟨r, hr, he⟩
    cases r with
    | ok a => simp [RResult.errOpt] at he
    | err e =>
      simp only [RResult.errOpt, Option.some.injEq] at he
      exact he ▸ hr
  · intro h
    exact ⟨RResult.err b, h, rfl⟩

/-- The error payload list is empty iff the input has no `err` element. -/
theorem filterMap_errOpt_eq_nil {l : List (RResult A B)} :
    l.filterMap RResult.errOpt = [] ↔ ∀ b : B, RResult.err b ∉ l := by
  constructor
  · intro h b hb
    have : b ∈ l.filterMap RResult.errOpt := mem_filterMap_errOpt.mpr hb
    rw [h] at this
    cases this
  · intro h
    rcases he : l.filterMap RResult.errOpt with _ | ⟨e, es⟩
    · rfl
    · have : e ∈ l.filterMap RResult.errOpt := by rw [he]; exact List.mem_cons_self e es
      exact absurd (mem_filterMap_errOpt.mp this) (h e)

/-- The number of error payloads is the number of `err` elements. -/
theorem length_filterMap_errOpt (l : List (RResult A B)) :
    (l.filterMap RResult.errOpt).length = l.countP (fun r => r.isErr) := by
  induction l with
  | nil => rfl
  | cons x l ih =>
    cases x <;>
      simp [RResult.errOpt, RResult.isErr, List.countP_cons, ih]

/-- Without error elements, the success payloads exhaust the input. -/
theorem length_filterMap_okOpt_of_no_err (l : List (RResult A B))
    (h : l.filterMap RResult.errOpt = []) :
    (l.filterMap RResult.okOpt).length = l.length := by
  induction l with
  | nil => rfl
  | cons x l ih =>
    cases x with
    | ok a =>
      simp only [RResult.errOpt, List.filterMap_cons_none] at h
      simp [RResult.okOpt, ih h]
    | err e =>
      simp [RResult.errOpt, List.filterMap_cons_some] at h

/-- Mapping payloads back into `err` and extracting them is the identity. -/
theorem filterMap_errOpt_map_err (es : List B) :
    ((es.map (RResult.err : B → RResult C B)).filterMap RResult.errOpt) = es := by
  induction es with
  | nil => rfl
  | cons e es ih => simp [RResult.errOpt, ih]

/-! Sanity checks: the scenario table of the spec and the library's tests. -/

example :
    (Gatherr.from_iter [RResult.ok "a", RResult.err 1, RResult.ok "b", RResult.err 2]).res
      = .err [1, 2] := by decide

example :
    (Gatherr.from_iter [RResult.ok "Hello", RResult.ok "World",
        (RResult.ok "!" : RResult String Nat)]).res
      = .ok ["Hello", "World", "!"] := by decide

example :
    (Gatherr.from_iter [(RResult.err "Goodbye" : RResult Nat String),
        RResult.err "cruel", RResult.err "world"]).res
      = .err ["Goodbye", "cruel", "world"] := by decide

example :
    (Gatherr.from_iter [RResult.ok "Hello", RResult.ok "World", RResult.err "Goodbye",
        RResult.ok "!", RResult.err "cruel", RResult.err "world"]).res
      = .err ["Goodbye", "cruel", "world"] := by decide

example :
    (Gatherr.from_iter ([] : List (RResult String String))).res = .ok [] := by decide

/-! The claims. -/

/-- C1: for every finite input, the aggregate result is the failure variant
(`Err` of a collection) iff the input contains at least one `Failure`
element; otherwise it is the success variant (`Ok` of a collection). -/
theorem gatherr_err_iff_exists_failure (l : List (RResult A B)) :
    ((∃ es, (Gatherr.from_iter l).res = .err es) ↔ ∃ b, RResult.err b ∈ l) ∧
    ((∃ t, (Gatherr.from_iter l).res = .ok t) ↔ ∀ b : B, RResult.err b ∉ l) := by
  rw [from_iter_eq]
  rcases he : l.filterMap RResult.errOpt with _ | ⟨e, es⟩
  · refine ⟨⟨?_, ?_⟩, ⟨?_, ?_⟩⟩
    · rintro ⟨es, h⟩
      simp at h
    · rintro ⟨b, hb⟩
      have hmem : b ∈ l.filterMap RResult.errOpt := mem_filterMap_errOpt.mpr hb
      rw [he] at hmem
      cases hmem
    · intro _
      exact filterMap_errOpt_eq_nil.mp he
    · intro _
      exact ⟨l.filterMap RResult.okOpt, rfl⟩
  · refine ⟨⟨?_, ?_⟩, ⟨?_, ?_⟩⟩
    · rintro -
      refine ⟨e, mem_filterMap_errOpt.mp ?_⟩
      rw [he]
      exact List.mem_cons_self e es
    · rintro -
      exact ⟨e :: es, rfl⟩
    · rintro ⟨t, h⟩
      simp at h
    · intro h
      have hmem : e ∈ l.filterMap RResult.errOpt := by
        rw [he]
        exact List.mem_cons_self e es
      exact absurd (mem_filterMap_errOpt.mp hmem) (h e)

/-- C2: for every finite input containing at least one `Failure`, the
resulting failure collection is exactly `l.filterMap RResult.errOpt`: the
ordered subsequence of all failure values of the input, in encounter order,
with no gaps, no reordering and no duplication. -/
theorem gatherr_failures_exact (l : List (RResult A B)) (b : B)
    (h : RResult.err b ∈ l) :
    (Gatherr.from_iter l).res = .err (l.filterMap RResult.errOpt) := by
  have hne : l.filterMap RResult.errOpt ≠ [] := by
    intro hnil
    exact absurd h (filterMap_errOpt_eq_nil.mp hnil b)
  rw [from_iter_err l hne]

/-- Witness for C2 at a concrete input taken from the spec's first scenario. -/
theorem gatherr_failures_exact_witness :
    RResult.err 1 ∈ [RResult.ok 10, RResult.err 1, RResult.ok 20, RResult.err 2] ∧
    (Gatherr.from_iter
        [RResult.ok 10, RResult.err 1, RResult.ok 20, RResult.err 2]).res
      = .err [1, 2] :=
  ⟨by decide,
    gatherr_failures_exact
      [RResult.ok 10, RResult.err 1, RResult.ok 20, RResult.err 2] 1 (by decide)⟩

/-- C3: for every finite input with zero `Failure` elements, the result is
the success variant containing exactly the success values of the input, in
input order (`l.filterMap RResult.okOpt`, which exhausts the input). -/
theorem gatherr_ok_all_successes (l : List (RResult A B))
    (h : ∀ b : B, RResult.err b ∉ l) :
    (Gatherr.from_iter l).res = .ok (l.filterMap RResult.okOpt) := by
  rw [from_iter_ok l (filterMap_errOpt_eq_nil.mpr h)]

/-- Witness for C3 at a concrete all-success input. -/
theorem gatherr_ok_all_successes_witness :
    (∀ b : Nat, RResult.err b ∉
      ([RResult.ok 10, RResult.ok 20, RResult.ok 30] : List (RResult Nat Nat))) ∧
    (Gatherr.from_iter
        ([RResult.ok 10, RResult.ok 20, RResult.ok 30] : List (RResult Nat Nat))).res
      = .ok [10, 20, 30] :=
  ⟨fun b hb => by simp at hb,
    gatherr_ok_all_successes [RResult.ok 10, RResult.ok 20, RResult.ok 30]
      (fun b hb => by simp at hb)⟩

/-- C4: the operation is total and two-valued: for every finite input it
returns either the `ok` variant or the `err` variant (the embedding is a
total computable function, so no input can make it fault). -/
theorem gatherr_total (l : List (RResult A B)) :
    (∃ t, (Gatherr.from_iter l).res = .ok t) ∨
    (∃ es, (Gatherr.from_iter l).res = .err es) := by
  cases h : (Gatherr.from_iter l).res with
  | ok t => exact Or.inl ⟨t, rfl⟩
  | err es => exact Or.inr ⟨es, rfl⟩

/-- C5: if the result is the success variant, its collection's length equals
the input length; if it is the failure variant, its collection's length
equals the number of `Failure` elements of the input and is at least 1. -/
theorem gatherr_lengths (l : List (RResult A B)) :
    (∀ t, (Gatherr.from_iter l).res = .ok t → t.length = l.length) ∧
    (∀ es, (Gatherr.from_iter l).res = .err es →
      es.length = l.countP (fun r => r.isErr) ∧ 1 ≤ es.length) := by
  rcases he : l.filterMap RResult.errOpt with _ | ⟨e, es'⟩
  · rw [from_iter_ok l he]
    constructor
    · intro t ht
      simp only [RResult.ok.injEq] at ht
      rw [← ht]
      exact length_filterMap_okOpt_of_no_err l he
    · intro es hes
      simp at hes
  · rw [from_iter_err l (by rw [he]; simp)]
    constructor
    · intro t ht
      simp at ht
    · intro es hes
      simp only [RResult.err.injEq] at hes
      rw [← hes, ← length_filterMap_errOpt, he]
      simp

/-- Inversion helper: an `err` result carries exactly the error payloads. -/
theorem err_res_eq (l : List (RResult A B)) (es : List B)
    (h : (Gatherr.from_iter l).res = .err es) :
    es = l.filterMap RResult.errOpt := by
  rcases he : l.filterMap RResult.errOpt with _ | ⟨e, es'⟩
  · rw [from_iter_ok l he] at h
    simp at h
  · rw [from_iter_err l (by rw [he]; simp)] at h
    rw [← he]
    simpa using h.symm

/-- C6: no success value leaks into a failure-variant result: every element
of the failure collection is the payload of a `Failure` element of the input,
so successes before and after the first failure are all discarded. -/
theorem gatherr_no_stray_successes (l : List (RResult A B)) (es : List B)
    (h : (Gatherr.from_iter l).res = .err es) :
    ∀ b ∈ es, RResult.err b ∈ l := by
  intro b hb
  rw [err_res_eq l es h] at hb
  exact mem_filterMap_errOpt.mp hb

/-- Witness for C6 at a concrete input with successes on both sides of the
first failure. -/
theorem gatherr_no_stray_successes_witness :
    (Gatherr.from_iter
        ([RResult.ok 5, RResult.err 1, RResult.ok 6, RResult.err 2]
          : List (RResult Nat Nat))).res = .err [1, 2] ∧
    ∀ b ∈ ([1, 2] : List Nat),
      RResult.err b ∈ [RResult.ok 5, RResult.err 1, RResult.ok 6, RResult.err 2] :=
  ⟨by decide,
    gatherr_no_stray_successes
      [RResult.ok 5, RResult.err 1, RResult.ok 6, RResult.err 2] [1, 2] (by decide)⟩

/-- C7: the three entry points — collecting into the `Gatherr` wrapper,
the iterator-extension method `gatherr`, and the free function `gatherr` —
agree on every input. -/
theorem entry_points_agree (l : List (RResult A B)) :
    IterExt.gatherr l = (Gatherr.from_iter l).res ∧
    gatherr l = (Gatherr.from_iter l).res ∧
    IterExt.gatherr l = gatherr l :=
  ⟨rfl, rfl, rfl⟩

/-- C8: the empty input yields the success variant with an empty collection. -/
theorem gatherr_empty (A B : Type) :
    (Gatherr.from_iter ([] : List (RResult A B))).res = .ok [] := rfl

/-- C9: re-aggregation is idempotent on failures: wrapping each value of a
failure collection back as a `Failure` and aggregating yields the failure
variant with the same collection, unchanged in content and order (at any
success type `C`). -/
theorem gatherr_idempotent_reaggregation (l : List (RResult A B)) (es : List B)
    (h : (Gatherr.from_iter l).res = .err es) :
    (Gatherr.from_iter (es.map (RResult.err : B → RResult C B))).res = .err es := by
  have hes : es = l.filterMap RResult.errOpt := err_res_eq l es h
  have hne : es ≠ [] := by
    intro hnil
    rw [hnil] at hes
    rw [from_iter_ok l hes.symm] at h
    simp at h
  have hmap : (es.map (RResult.err : B → RResult C B)).filterMap RResult.errOpt = es :=
    filterMap_errOpt_map_err es
  rw [from_iter_err (es.map (RResult.err : B → RResult C B)) (by rw [hmap]; exact hne)]
  simp [hmap]

/-- Witness for C9: re-aggregating the failure collection of a concrete
failure result reproduces it. -/
theorem gatherr_idempotent_reaggregation_witness :
    (Gatherr.from_iter
        ([RResult.ok 7, RResult.err 1, RResult.err 2] : List (RResult Nat Nat))).res
      = .err [1, 2] ∧
    (Gatherr.from_iter
        (([1, 2] : List Nat).map (RResult.err : Nat → RResult Nat Nat))).res
      = .err [1, 2] :=
  ⟨by decide,
    gatherr_idempotent_reaggregation [RResult.ok 7, RResult.err 1, RResult.err 2]
      [1, 2] (by decide)⟩

/-- C10: success payloads cannot influence a failure-variant result: two
inputs that each contain a `Failure` and have equal ordered sequences of
failure values produce equal aggregate results, whatever successes they
contain. -/
theorem gatherr_success_noninterference (l1 l2 : List (RResult A B))
    (h1 : ∃ b, RResult.err b ∈ l1) (h2 : ∃ b, RResult.err b ∈ l2)
    (heq : l1.filterMap RResult.errOpt = l2.filterMap RResult.errOpt) :
    Gatherr.from_iter l1 = Gatherr.from_iter l2 := by
  obtain ⟨b1, hb1⟩ := h1
  obtain ⟨b2, hb2⟩ := h2
  have hne1 : l1.filterMap RResult.errOpt ≠ [] := fun hnil =>
    absurd hb1 (filterMap_errOpt_eq_nil.mp hnil b1)
  have hne2 : l2.filterMap RResult.errOpt ≠ [] := fun hnil =>
    absurd hb2 (filterMap_errOpt_eq_nil.mp hnil b2)
  rw [from_iter_err l1 hne1, from_iter_err l2 hne2, heq]

/-- Witness for C10: two inputs with different successes but the same
failure sequence aggregate identically. -/
theorem gatherr_success_noninterference_witness :
    Gatherr.from_iter ([RResult.ok 5, RResult.err 1] : List (RResult Nat Nat))
      = Gatherr.from_iter [RResult.err 1, RResult.ok 7, RResult.ok 9] :=
  gatherr_success_noninterference [RResult.ok 5, RResult.err 1]
    [RResult.err 1, RResult.ok 7, RResult.ok 9]
    ⟨1, by decide⟩ ⟨1, by decide⟩ (by decide)
